import Mathlib

/-!
Verification development for the mycelia-web client (src/src/app.rs).

The program is an egui application whose only algorithmic content is an
async-to-sync fetch bridge: `MyceliaApp::make_request` dispatches one HTTP GET
whose completion callback sends a single `Result<String, String>` over a fresh
`mpsc` channel, and `MyceliaApp::update` polls the receiver once per UI frame
with `try_recv`, consuming the outcome into the app state.

This file shallowly embeds that code:

* `Entry`, `EditorComponent`, `MyceliaApp` mirror the Rust structs (the
  `Receiver` field `rx` is modelled as an `Option Nat` channel identifier).
* `utf8Decode?` models `std::str::from_utf8` (which `ehttp::Response::text`
  wraps), so that the `res.text().unwrap()` panic branch is visible.
* `fetchCallback` is the completion closure of `make_request` (lines 130-141);
  `none` models a panic of the closure.
* `parseJson` / `parseEntries` model `serde_json::from_str::<Vec<Entry>>` on
  the derived `Deserialize` for `Entry` (two `String` fields, unknown fields
  ignored, duplicate and missing fields rejected, whole input consumed).
* `consumeOutcome` is the body of the `match result` in `update` (158-172);
  `World`, `Event`, `stepE`, `execW` give a small operational semantics of
  the dispatch / complete / poll loop, with a ghost `log` recording which
  request identifiers have had their outcome consumed.
-/

/-- The server record unit, from `struct Entry` (app.rs lines 8-12). -/
structure Entry where
  id : String
  text : String
deriving DecidableEq

/-- `struct EditorComponent` (app.rs lines 14-18): the edit-pane selection. -/
structure EditorComponent where
  entry : Option Entry
deriving DecidableEq

/-- `EditorComponent::default` (app.rs lines 57-61). -/
def EditorComponent.defaultState : EditorComponent :=
  { entry := none }

deriving instance DecidableEq for Except

/-- The outcome type carried by the channel: `Result<String, String>`.
`Except.ok` is Rust's `Ok`, `Except.error` is Rust's `Err`. -/
abbrev FetchResult := Except String String

/-- `struct MyceliaApp` (app.rs lines 70-87).  The `Receiver` in `rx` is
modelled by the identifier of the channel it reads from; fields marked
`#[serde(skip)]` in the source are `view_entry`, `text`, `entries`, `rx`. -/
structure MyceliaApp where
  api_key : String
  editor_component : EditorComponent
  view_entry : Option Entry
  text : Option FetchResult
  entries : List Entry
  rx : Option Nat
deriving DecidableEq

/-- `MyceliaApp::default` (app.rs lines 89-100). -/
def MyceliaApp.defaultState : MyceliaApp :=
  { api_key := "Insert api key"
    editor_component := EditorComponent.defaultState
    view_entry := none
    text := none
    entries := []
    rx := none }

/-! ## UTF-8, `ehttp::Response::text` and the completion callback -/

/-- Is `b` a UTF-8 continuation byte (`0x80..0xBF`)? -/
def utf8Cont (b : Nat) : Bool :=
  0x80 ≤ b && b < 0xC0

/-- UTF-8 decoding of a byte sequence, as Rust's `std::str::from_utf8`
(RFC 3629): rejects stray continuation bytes, overlong encodings, surrogate
code points and values above U+10FFFF. -/
def utf8Decode? : List Nat → Option (List Char)
  | [] => some []
  | b0 :: rest =>
    if b0 < 0x80 then
      match utf8Decode? rest with
      | some cs => some (Char.ofNat b0 :: cs)
      | none => none
    else if b0 < 0xC2 then
      none
    else if b0 < 0xE0 then
      match rest with
      | b1 :: rest2 =>
        if utf8Cont b1 then
          match utf8Decode? rest2 with
          | some cs => some (Char.ofNat ((b0 - 0xC0) * 0x40 + (b1 - 0x80)) :: cs)
          | none => none
        else none
      | [] => none
    else if b0 < 0xF0 then
      match rest with
      | b1 :: b2 :: rest3 =>
        if utf8Cont b1 && utf8Cont b2
            && (b0 ≠ 0xE0 || 0xA0 ≤ b1) && (b0 ≠ 0xED || b1 < 0xA0) then
          match utf8Decode? rest3 with
          | some cs =>
            some (Char.ofNat (((b0 - 0xE0) * 0x40 + (b1 - 0x80)) * 0x40 + (b2 - 0x80)) :: cs)
          | none => none
        else none
      | _ => none
    else if b0 < 0xF5 then
      match rest with
      | b1 :: b2 :: b3 :: rest4 =>
        if utf8Cont b1 && utf8Cont b2 && utf8Cont b3
            && (b0 ≠ 0xF0 || 0x90 ≤ b1) && (b0 ≠ 0xF4 || b1 < 0x90) then
          match utf8Decode? rest4 with
          | some cs =>
            some (Char.ofNat ((((b0 - 0xF0) * 0x40 + (b1 - 0x80)) * 0x40 + (b2 - 0x80)) * 0x40
              + (b3 - 0x80)) :: cs)
          | none => none
        else none
      | _ => none
    else none

/-- UTF-8 encoding of one scalar value (used to build concrete byte bodies). -/
def utf8EncodeChar (c : Char) : List Nat :=
  let n := c.toNat
  if n < 0x80 then [n]
  else if n < 0x800 then [0xC0 + n / 0x40, 0x80 + n % 0x40]
  else if n < 0x10000 then
    [0xE0 + n / 0x1000, 0x80 + n / 0x40 % 0x40, 0x80 + n % 0x40]
  else
    [0xF0 + n / 0x40000, 0x80 + n / 0x1000 % 0x40, 0x80 + n / 0x40 % 0x40, 0x80 + n % 0x40]

/-- UTF-8 encoding of a string. -/
def utf8Encode (s : String) : List Nat :=
  s.data.foldr (fun c acc => utf8EncodeChar c ++ acc) []

/-- The parts of `ehttp::Response` the callback reads: the success flag
`ok` (2xx status) and the raw body bytes. -/
structure Response where
  ok : Bool
  bytes : List Nat

/-- `ehttp::Response::text`, i.e. `std::str::from_utf8(&self.bytes).ok()`. -/
def Response.text (r : Response) : Option String :=
  (utf8Decode? r.bytes).map fun cs => String.mk cs

/-- The completion closure passed to `ehttp::fetch` in `make_request`
(app.rs lines 130-141).  The closure receives `Result<Response, String>`;
it sends `Ok(body)` when the status is a success, `Err(body)` when the server
reported an error status, and `Err(description)` on a transport error.
`none` models the panic of `res.text().unwrap()` on a non-UTF-8 body. -/
def fetchCallback : Except String Response → Option FetchResult
  | .error e => some (.error e)
  | .ok res =>
    match res.text with
    | some body => some (if res.ok then .ok body else .error body)
    | none => none

/-! ## `serde_json::from_str::<Vec<Entry>>` -/

/-- JSON values, with numbers kept as their source spelling (the program never
reads a numeric value: numbers can only occur inside ignored unknown fields). -/
inductive Json where
  | null
  | bool (b : Bool)
  | num (tok : String)
  | str (s : String)
  | arr (items : List Json)
  | obj (fields : List (String × Json))

/-- JSON insignificant whitespace. -/
def isWsChar (c : Char) : Bool :=
  c = ' ' || c = '\n' || c = Char.ofNat 13 || c = '\t'

/-- Drop leading JSON whitespace. -/
def skipWs : List Char → List Char
  | [] => []
  | c :: cs => if isWsChar c then skipWs cs else c :: cs

/-- Value of one hexadecimal digit. -/
def hexDigitVal (c : Char) : Option Nat :=
  if '0' ≤ c ∧ c ≤ '9' then some (c.toNat - '0'.toNat)
  else if 'a' ≤ c ∧ c ≤ 'f' then some (c.toNat - 'a'.toNat + 10)
  else if 'A' ≤ c ∧ c ≤ 'F' then some (c.toNat - 'A'.toNat + 10)
  else none

/-- Four hexadecimal digits, as in a `\uXXXX` escape. -/
def parseHex4 : List Char → Option (Nat × List Char)
  | h1 :: h2 :: h3 :: h4 :: rest =>
    match hexDigitVal h1, hexDigitVal h2, hexDigitVal h3, hexDigitVal h4 with
    | some a, some b, some c, some d => some (((a * 16 + b) * 16 + c) * 16 + d, rest)
    | _, _, _, _ => none
  | _ => none

/-- The single-character JSON escapes. -/
def escapeChar (c : Char) : Option Char :=
  if c = '"' then some '"'
  else if c = '\\' then some '\\'
  else if c = '/' then some '/'
  else if c = 'b' then some (Char.ofNat 8)
  else if c = 'f' then some (Char.ofNat 12)
  else if c = 'n' then some '\n'
  else if c = 'r' then some (Char.ofNat 13)
  else if c = 't' then some '\t'
  else none

/-- Body of a JSON string after the opening quote: unescapes, pairs UTF-16
surrogate escapes, rejects unescaped control characters, stops at the closing
quote.  The fuel argument only bounds the recursion; callers pass at least the
input length plus one, so the `0` branch is unreachable. -/
def parseStringBody : Nat → List Char → Except String (List Char × List Char)
  | 0, _ => .error "recursion limit exceeded"
  | _ + 1, [] => .error "EOF while parsing a string"
  | fuel + 1, c :: cs =>
    if c = '"' then .ok ([], cs)
    else if c = '\\' then
      match cs with
      | [] => .error "EOF while parsing a string"
      | e :: cs2 =>
        if e = 'u' then
          match parseHex4 cs2 with
          | none => .error "invalid escape"
          | some (n, cs3) =>
            if n < 0xD800 || 0xE000 ≤ n then
              match parseStringBody fuel cs3 with
              | .ok (out, rest) => .ok (Char.ofNat n :: out, rest)
              | .error m => .error m
            else if n < 0xDC00 then
              match cs3 with
              | b1 :: b2 :: tail =>
                if b1 = '\\' && b2 = 'u' then
                  match parseHex4 tail with
                  | none => .error "invalid escape"
                  | some (m2, cs4) =>
                    if 0xDC00 ≤ m2 && m2 < 0xE000 then
                      match parseStringBody fuel cs4 with
                      | .ok (out, rest) =>
                        .ok (Char.ofNat (0x10000 + (n - 0xD800) * 0x400 + (m2 - 0xDC00))
                          :: out, rest)
                      | .error m => .error m
                    else .error "lone leading surrogate in string"
                else .error "unexpected end of hex escape"
              | _ => .error "unexpected end of hex escape"
            else .error "lone trailing surrogate in string"
        else
          match escapeChar e with
          | some ec =>
            match parseStringBody fuel cs2 with
            | .ok (out, rest) => .ok (ec :: out, rest)
            | .error m => .error m
          | none => .error "invalid escape"
    else if c.toNat < 0x20 then .error "control character in string"
    else
      match parseStringBody fuel cs with
      | .ok (out, rest) => .ok (c :: out, rest)
      | .error m => .error m

/-- Is `c` an ASCII decimal digit? -/
def isDigitChar (c : Char) : Bool :=
  '0' ≤ c && c ≤ '9'

/-- Longest digit run at the front. -/
def takeDigits : List Char → List Char × List Char
  | [] => ([], [])
  | c :: cs =>
    if isDigitChar c then
      match takeDigits cs with
      | (ds, rest) => (c :: ds, rest)
    else ([], c :: cs)

/-- Integer part of a JSON number: `0` or a nonzero digit followed by digits
(leading zeros rejected, as in serde_json). -/
def parseIntPart : List Char → Except String (List Char × List Char)
  | [] => .error "EOF while parsing a value"
  | c :: cs =>
    if c = '0' then .ok ([c], cs)
    else if isDigitChar c then
      match takeDigits cs with
      | (ds, rest) => .ok (c :: ds, rest)
    else .error "invalid number"

/-- Optional fraction part: `.` followed by at least one digit. -/
def parseFracPart : List Char → Except String (List Char × List Char)
  | [] => .ok ([], [])
  | c :: cs =>
    if c = '.' then
      match takeDigits cs with
      | ([], _) => .error "invalid number"
      | (ds, rest) => .ok (c :: ds, rest)
    else .ok ([], c :: cs)

/-- Optional exponent part: `e` or `E`, optional sign, at least one digit. -/
def parseExpPart : List Char → Except String (List Char × List Char)
  | [] => .ok ([], [])
  | c :: cs =>
    if c = 'e' || c = 'E' then
      match cs with
      | [] => .error "invalid number"
      | s :: cs2 =>
        if s = '+' || s = '-' then
          match takeDigits cs2 with
          | ([], _) => .error "invalid number"
          | (ds, rest) => .ok (c :: s :: ds, rest)
        else
          match takeDigits cs with
          | ([], _) => .error "invalid number"
          | (ds, rest) => .ok (c :: ds, rest)
    else .ok ([], c :: cs)

/-- A JSON number token (grammar `-?(0|[1-9][0-9]*)(\.[0-9]+)?([eE][+-]?[0-9]+)?`),
returned as its spelling plus the remainder. -/
def parseNumber (input : List Char) : Except String (List Char × List Char) :=
  match input with
  | [] => .error "EOF while parsing a value"
  | c :: cs =>
    match (if c = '-' then ([c], cs) else ([], c :: cs)) with
    | (neg, rest) =>
      match parseIntPart rest with
      | .error m => .error m
      | .ok (ip, r1) =>
        match parseFracPart r1 with
        | .error m => .error m
        | .ok (fp, r2) =>
          match parseExpPart r2 with
          | .error m => .error m
          | .ok (ep, r3) => .ok (neg ++ ip ++ fp ++ ep, r3)

/-- Match a keyword tail such as `ull` after `n`. -/
def expectKeyword (kw : List Char) (v : Json) (cs : List Char) : Except String (Json × List Char) :=
  if kw.isPrefixOf cs then .ok (v, cs.drop kw.length) else .error "expected ident"

mutual

/-- One JSON value (after optional whitespace), returning the remainder.
The fuel only bounds nesting of the grammar; every fuel-decremented call
consumes input, so the top-level fuel of `parseJson` is never exhausted. -/
def parseValue : Nat → List Char → Except String (Json × List Char)
  | 0, _ => .error "recursion limit exceeded"
  | fuel + 1, input =>
    match skipWs input with
    | [] => .error "EOF while parsing a value"
    | c :: cs =>
      if c = 'n' then expectKeyword ['u', 'l', 'l'] Json.null cs
      else if c = 't' then expectKeyword ['r', 'u', 'e'] (Json.bool true) cs
      else if c = 'f' then expectKeyword ['a', 'l', 's', 'e'] (Json.bool false) cs
      else if c = '"' then
        match parseStringBody (cs.length + 1) cs with
        | .ok (out, rest) => .ok (Json.str (String.mk out), rest)
        | .error m => .error m
      else if c = '[' then
        match skipWs cs with
        | ']' :: rest => .ok (Json.arr [], rest)
        | _ =>
          match parseElems fuel cs with
          | .ok (vs, rest) => .ok (Json.arr vs, rest)
          | .error m => .error m
      else if c = '\x7b' then
        match skipWs cs with
        | '\x7d' :: rest => .ok (Json.obj [], rest)
        | _ =>
          match parseMembers fuel cs with
          | .ok (ms, rest) => .ok (Json.obj ms, rest)
          | .error m => .error m
      else if c = '-' || isDigitChar c then
        match parseNumber (c :: cs) with
        | .ok (tok, rest) => .ok (Json.num (String.mk tok), rest)
        | .error m => .error m
      else .error "expected value"

/-- Comma-separated JSON values up to the closing bracket. -/
def parseElems : Nat → List Char → Except String (List Json × List Char)
  | 0, _ => .error "recursion limit exceeded"
  | fuel + 1, input =>
    match parseValue fuel input with
    | .error m => .error m
    | .ok (v, rest) =>
      match skipWs rest with
      | ',' :: rest2 =>
        match parseElems fuel rest2 with
        | .ok (vs, rest3) => .ok (v :: vs, rest3)
        | .error m => .error m
      | ']' :: rest2 => .ok ([v], rest2)
      | _ => .error "expected comma or bracket"

/-- Comma-separated `"key": value` members up to the closing brace. -/
def parseMembers : Nat → List Char → Except String (List (String × Json) × List Char)
  | 0, _ => .error "recursion limit exceeded"
  | fuel + 1, input =>
    match skipWs input with
    | '"' :: cs =>
      match parseStringBody (cs.length + 1) cs with
      | .error m => .error m
      | .ok (key, rest) =>
        match skipWs rest with
        | ':' :: rest2 =>
          match parseValue fuel rest2 with
          | .error m => .error m
          | .ok (v, rest3) =>
            match skipWs rest3 with
            | ',' :: rest4 =>
              match parseMembers fuel rest4 with
              | .ok (ms, rest5) => .ok ((String.mk key, v) :: ms, rest5)
              | .error m => .error m
            | '\x7d' :: rest4 => .ok ([(String.mk key, v)], rest4)
            | _ => .error "expected comma or brace"
        | _ => .error "expected colon"
    | _ => .error "key must be a string"

end

/-- A whole JSON document: one value, then only whitespace (serde_json's
end-of-input check).  Fuel `2 * length + 2` strictly dominates the nesting
depth reachable on the input, so the limit branch never fires. -/
def parseJson (s : String) : Except String Json :=
  match parseValue (2 * s.data.length + 2) s.data with
  | .error m => .error m
  | .ok (v, rest) =>
    match skipWs rest with
    | [] => .ok v
    | _ => .error "trailing characters"

/-- Field loop of the derived `Deserialize` for `Entry`: fields are visited in
source order, `id` and `text` must be JSON strings and must not repeat,
unknown fields are ignored, missing fields are an error. -/
def entryOfFields : List (String × Json) → Option String → Option String → Except String Entry
  | [], some i, some t => .ok { id := i, text := t }
  | [], none, _ => .error "missing field id"
  | [], some _, none => .error "missing field text"
  | (k, v) :: rest, idAcc, textAcc =>
    if k = "id" then
      match idAcc with
      | some _ => .error "duplicate field id"
      | none =>
        match v with
        | Json.str s => entryOfFields rest (some s) textAcc
        | _ => .error "invalid type for field id"
    else if k = "text" then
      match textAcc with
      | some _ => .error "duplicate field text"
      | none =>
        match v with
        | Json.str s => entryOfFields rest idAcc (some s)
        | _ => .error "invalid type for field text"
    else entryOfFields rest idAcc textAcc

/-- One `Entry` from a JSON value: must be an object. -/
def entryOfJson : Json → Except String Entry
  | Json.obj fields => entryOfFields fields none none
  | _ => .error "invalid type: expected struct Entry"

/-- Each array element as an `Entry`, in order, stopping at the first error. -/
def entriesOfList : List Json → Except String (List Entry)
  | [] => .ok []
  | j :: rest =>
    match entryOfJson j with
    | .error m => .error m
    | .ok e =>
      match entriesOfList rest with
      | .ok es => .ok (e :: es)
      | .error m => .error m

/-- A `Vec<Entry>` from a JSON value: must be an array. -/
def entriesOfJson : Json → Except String (List Entry)
  | Json.arr items => entriesOfList items
  | _ => .error "invalid type: expected a sequence"

/-- `serde_json::from_str::<Vec<Entry>>(&body)` (app.rs line 161). -/
def parseEntries (body : String) : Except String (List Entry) :=
  match parseJson body with
  | .error m => .error m
  | .ok j => entriesOfJson j

/-! ## The update-loop consumption and the dispatch / complete / poll semantics -/

/-- The `match result` block of `MyceliaApp::update` (app.rs lines 158-172):
on `Ok(body)` the entry list is cleared, then the body is parsed — storing the
parsed entries and `Ok("")` on success, a decode-failure message on error; on
`Err(e)` the message is stored and the entry list is untouched. -/
def consumeOutcome (result : FetchResult) (app : MyceliaApp) : MyceliaApp :=
  match result with
  | .ok body =>
    let app1 := { app with entries := [] }
    match parseEntries body with
    | .ok es => { app1 with entries := es, text := some (.ok "") }
    | .error e => { app1 with text := some (.error ("Failed to parse JSON: " ++ e)) }
  | .error e => { app with text := some (.error e) }

/-- Global state of the app together with its environment: `nextId` numbers
the channels created by `mpsc::channel()` (each call is fresh), `chan` holds
the values sent but not yet received, `pending` the dispatched fetches whose
callback has not run yet, and `log` is a ghost trace of the request
identifiers whose outcome the poll loop has consumed (newest first). -/
structure World where
  app : MyceliaApp
  nextId : Nat
  chan : List (Nat × FetchResult)
  pending : List Nat
  log : List Nat
deriving DecidableEq

/-- The buffered value of channel `id`, if any. -/
def lookupChan : List (Nat × FetchResult) → Nat → Option FetchResult
  | [], _ => none
  | (i, v) :: rest, id => if i = id then some v else lookupChan rest id

/-- Remove any buffered value of channel `id`. -/
def removeChan : List (Nat × FetchResult) → Nat → List (Nat × FetchResult)
  | [], _ => []
  | (i, v) :: rest, id =>
    if i = id then removeChan rest id else (i, v) :: removeChan rest id

/-- `MyceliaApp::make_request` (app.rs lines 117-143): create a fresh channel,
overwrite `self.rx` with its receiver, and start a fetch whose callback will
send on the transmitter. -/
def makeRequest (w : World) : World :=
  { w with
    app := { w.app with rx := some w.nextId }
    nextId := w.nextId + 1
    pending := w.nextId :: w.pending }

/-- The reload-button branch of `update` (app.rs lines 203-206):
`self.text = None; self.make_request(..)`. -/
def stepReload (w : World) : World :=
  makeRequest { w with app := { w.app with text := none } }

/-- Completion of the dispatched fetch for request `id`: the callback runs
once and sends value `v` on its channel (`let _ = tx.send(..)`, lines
130-141).  If `id` is not pending (already completed) nothing happens. -/
def stepComplete (id : Nat) (v : FetchResult) (w : World) : World :=
  if id ∈ w.pending then
    { w with pending := w.pending.erase id, chan := (id, v) :: w.chan }
  else w

/-- The poll at the top of `update` (app.rs lines 154-176): only when
`self.text.is_none()` and a receiver is held, `try_recv` is tried; when a
value is ready it is consumed via `consumeOutcome` and `self.rx = None`. -/
def stepFrame (w : World) : World :=
  match w.app.text, w.app.rx with
  | none, some id =>
    match lookupChan w.chan id with
    | some v =>
      { w with
        app := { consumeOutcome v w.app with rx := none }
        chan := removeChan w.chan id
        log := id :: w.log }
    | none => w
  | _, _ => w

/-- The externally visible events of one run. -/
inductive Event where
  | reload
  | complete (id : Nat) (v : FetchResult)
  | frame
deriving DecidableEq

/-- One event step. -/
def stepE (w : World) : Event → World
  | .reload => stepReload w
  | .complete id v => stepComplete id v w
  | .frame => stepFrame w

/-- Run a sequence of events. -/
def execW (w : World) : List Event → World
  | [] => w
  | e :: tr => execW (stepE w e) tr

/-- The initial world: default app state, no channels, nothing pending. -/
def initW : World :=
  { app := MyceliaApp.defaultState
    nextId := 0
    chan := []
    pending := []
    log := [] }

/-- The state invariant maintained by every event: consumed identifiers are
distinct and below `nextId`, a held receiver is the most recent channel and
not yet consumed, and a held receiver implies the poll gate is open
(`text` is `None`). -/
def WInv (w : World) : Prop :=
  w.log.Nodup
  ∧ (∀ i ∈ w.log, i < w.nextId)
  ∧ (∀ i, w.app.rx = some i → i + 1 = w.nextId ∧ i ∉ w.log)
  ∧ (w.app.rx.isSome → w.app.text = none)

/-! ## Persistence (`serde` derive with `#[serde(skip)]` + eframe save/load) -/

/-- The fields of `MyceliaApp` that serde serializes: every field not marked
`#[serde(skip)]`, namely `api_key` and `editor_component` (app.rs 70-87). -/
structure PersistedApp where
  api_key : String
  editor_component : EditorComponent
deriving DecidableEq

/-- `eframe::App::save` (app.rs lines 148-150): serialize the non-skipped
fields. -/
def MyceliaApp.save (app : MyceliaApp) : PersistedApp :=
  { api_key := app.api_key, editor_component := app.editor_component }

/-- `MyceliaApp::new` restoring persisted state on startup (app.rs 104-115):
deserialization fills the non-skipped fields from storage and every
`#[serde(skip)]` field with its `Default` value. -/
def loadApp (p : PersistedApp) : MyceliaApp :=
  { api_key := p.api_key
    editor_component := p.editor_component
    view_entry := none
    text := none
    entries := []
    rx := none }

/-! ## Invariant lemmas -/

/-- The initial world satisfies the invariant. -/
theorem initW_inv : WInv initW := by
  refine ⟨?_, ?_, ?_, ?_⟩ <;> simp [initW, MyceliaApp.defaultState]

/-- A reload (dispatch) preserves the invariant. -/
theorem stepReload_inv (w : World) (h : WInv w) : WInv (stepReload w) := by
  obtain ⟨h1, h2, h3, h4⟩ := h
  simp only [stepReload, makeRequest]
  refine ⟨h1, ?_, ?_, ?_⟩
  · intro i hi
    exact Nat.lt_succ_of_lt (h2 i hi)
  · intro i hi
    have hi' : w.nextId = i := by simpa using hi
    subst hi'
    refine ⟨rfl, fun hmem => ?_⟩
    have := h2 _ hmem
    omega
  · intro _
    rfl

/-- A fetch completion preserves the invariant. -/
theorem stepComplete_inv (id : Nat) (v : FetchResult) (w : World) (h : WInv w) :
    WInv (stepComplete id v w) := by
  unfold stepComplete
  split
  · exact h
  · exact h

/-- A poll step preserves the invariant. -/
theorem stepFrame_inv (w : World) (h : WInv w) : WInv (stepFrame w) := by
  obtain ⟨h1, h2, h3, h4⟩ := h
  cases htext : w.app.text with
  | some t =>
    simp only [stepFrame, htext]
    exact ⟨h1, h2, h3, h4⟩
  | none =>
    cases hrx : w.app.rx with
    | none =>
      simp only [stepFrame, htext, hrx]
      exact ⟨h1, h2, h3, h4⟩
    | some id =>
      cases hlook : lookupChan w.chan id with
      | none =>
        simp only [stepFrame, htext, hrx, hlook]
        exact ⟨h1, h2, h3, h4⟩
      | some v =>
        obtain ⟨hid, hnotin⟩ := h3 id hrx
        simp only [stepFrame, htext, hrx, hlook]
        refine ⟨?_, ?_, ?_, ?_⟩
        · exact List.nodup_cons.mpr ⟨hnotin, h1⟩
        · intro i hi
          replace hi : i ∈ id :: w.log := hi
          show i < w.nextId
          rcases List.mem_cons.mp hi with rfl | hi'
          · omega
          · exact h2 i hi'
        · intro i hi
          simp at hi
        · intro hs
          simp at hs

/-- Every event preserves the invariant. -/
theorem stepE_inv (w : World) (e : Event) (h : WInv w) : WInv (stepE w e) := by
  cases e with
  | reload => exact stepReload_inv w h
  | complete id v => exact stepComplete_inv id v w h
  | frame => exact stepFrame_inv w h

/-- Every event sequence preserves the invariant. -/
theorem execW_inv (w : World) (tr : List Event) (h : WInv w) : WInv (execW w tr) := by
  induction tr generalizing w with
  | nil => exact h
  | cons e tr ih => exact ih (stepE w e) (stepE_inv w e h)

/-- `nextId` never decreases across one event. -/
theorem stepE_nextId (w : World) (e : Event) : w.nextId ≤ (stepE w e).nextId := by
  cases e with
  | reload =>
    show w.nextId ≤ w.nextId + 1
    exact Nat.le_succ _
  | complete id v =>
    show w.nextId ≤ (stepComplete id v w).nextId
    unfold stepComplete
    split
    · exact Nat.le_refl w.nextId
    · exact Nat.le_refl w.nextId
  | frame =>
    cases htext : w.app.text with
    | some t => simp [stepE, stepFrame, htext]
    | none =>
      cases hrx : w.app.rx with
      | none => simp [stepE, stepFrame, htext, hrx]
      | some id =>
        cases hlook : lookupChan w.chan id with
        | none => simp [stepE, stepFrame, htext, hrx, hlook]
        | some v => simp [stepE, stepFrame, htext, hrx, hlook]

/-- One event either leaves the consumption log alone or consumes exactly the
request currently held in `rx`. -/
theorem stepE_log (w : World) (e : Event) :
    (stepE w e).log = w.log
    ∨ ∃ id, w.app.rx = some id ∧ (stepE w e).log = id :: w.log := by
  cases e with
  | reload => exact Or.inl rfl
  | complete id v =>
    have : (stepComplete id v w).log = w.log := by
      unfold stepComplete
      split
      · rfl
      · rfl
    exact Or.inl this
  | frame =>
    cases htext : w.app.text with
    | some t => simp [stepE, stepFrame, htext]
    | none =>
      cases hrx : w.app.rx with
      | none => simp [stepE, stepFrame, htext, hrx]
      | some id =>
        cases hlook : lookupChan w.chan id with
        | none => simp [stepE, stepFrame, htext, hrx, hlook]
        | some v =>
          exact Or.inr ⟨id, rfl, by simp [stepE, stepFrame, htext, hrx, hlook]⟩

/-- A request identifier that has been superseded (a newer channel exists) and
is not yet consumed can never be consumed by any continuation of the run. -/
theorem superseded_never_consumed (tr : List Event) :
    ∀ w, WInv w → ∀ i, i + 1 < w.nextId → i ∉ w.log → i ∉ (execW w tr).log := by
  induction tr with
  | nil => exact fun w _ i _ h2 => h2
  | cons e tr ih =>
    intro w hw i hlt hnot
    apply ih (stepE w e) (stepE_inv w e hw) i
    · exact Nat.lt_of_lt_of_le hlt (stepE_nextId w e)
    · rcases stepE_log w e with heq | ⟨id, hrx, heq⟩
      · rw [heq]; exact hnot
      · rw [heq]
        intro hmem
        rcases List.mem_cons.mp hmem with rfl | hmem'
        · obtain ⟨hid, _⟩ := hw.2.2.1 i hrx
          omega
        · exact hnot hmem'

/-! ## Claim theorems -/

/-- C1: at most one outcome is ever observable per dispatched request.  The
ghost `log` records, newest first, every request identifier whose outcome the
poll in `update` has consumed (stored into `text`, with `rx` set to `None`);
along every event sequence from the initial state the log has no duplicate,
so once a request's result has been consumed no later poll of any update
cycle ever yields a value for that request again. -/
theorem mycelia_poll_after_consumption_yields_nothing (tr : List Event) :
    ((execW initW tr).log).Nodup :=
  (execW_inv initW tr initW_inv).1

/-- C2: only the most recently dispatched request's outcome is ever
observable.  If after some prefix `tr1` request `i` has been superseded by a
later dispatch (`i + 1 < nextId`, i.e. `i` is no longer the channel held in
`rx`) and `i` is unconsumed, then no continuation `tr2` ever consumes `i`:
the overwritten receiver makes the prior outcome unobservable forever. -/
theorem mycelia_only_latest_dispatch_observable (tr1 tr2 : List Event) (i : Nat)
    (h1 : i + 1 < (execW initW tr1).nextId)
    (h2 : i ∉ (execW initW tr1).log) :
    i ∉ (execW (execW initW tr1) tr2).log :=
  superseded_never_consumed tr2 (execW initW tr1) (execW_inv initW tr1 initW_inv) i h1 h2

/-- Witness for C2: after two dispatches, request 0 is superseded; completing
request 0 and polling a frame still never consumes it. -/
theorem mycelia_only_latest_dispatch_observable_witness :
    0 + 1 < (execW initW [Event.reload, Event.reload]).nextId
    ∧ 0 ∉ (execW initW [Event.reload, Event.reload]).log
    ∧ 0 ∉ (execW (execW initW [Event.reload, Event.reload])
        [Event.complete 0 (Except.error "x"), Event.frame]).log :=
  ⟨by decide, by decide,
    mycelia_only_latest_dispatch_observable [Event.reload, Event.reload]
      [Event.complete 0 (Except.error "x"), Event.frame] 0 (by decide) (by decide)⟩

/-- C3: a completed transfer whose server status is a non-success delivers
`Failure(body)` on the channel — the raw response body itself (here `s`, the
UTF-8 text of the body bytes), not a synthesized message and not a transport
error. -/
theorem mycelia_server_error_surfaces_body (r : Response) (s : String)
    (hok : r.ok = false) (htext : r.text = some s) :
    fetchCallback (.ok r) = some (.error s) := by
  simp [fetchCallback, htext, hok]

/-- Witness for C3: a non-success response with body "unauthorized" yields
exactly `Failure("unauthorized")`. -/
theorem mycelia_server_error_surfaces_body_witness :
    ({ ok := false, bytes := utf8Encode "unauthorized" } : Response).ok = false
    ∧ ({ ok := false, bytes := utf8Encode "unauthorized" } : Response).text
        = some "unauthorized"
    ∧ fetchCallback (.ok { ok := false, bytes := utf8Encode "unauthorized" })
        = some (.error "unauthorized") :=
  ⟨rfl, by decide,
    mycelia_server_error_surfaces_body { ok := false, bytes := utf8Encode "unauthorized" }
      "unauthorized" rfl (by decide)⟩

/-- C4: consuming a success outcome whose body is a valid JSON array of Entry
records stores an entry sequence equal, in content and order, to the array the
body denotes, and records success in `text`. -/
theorem mycelia_valid_entries_roundtrip (app : MyceliaApp) (body : String) (es : List Entry)
    (h : parseEntries body = .ok es) :
    (consumeOutcome (.ok body) app).entries = es
    ∧ (consumeOutcome (.ok body) app).text = some (.ok "") := by
  simp [consumeOutcome, h]

/-- Witness for C4: the body from the spec scenario parses to exactly one
entry with id "1" and text "hello", and consumption stores exactly it. -/
theorem mycelia_valid_entries_roundtrip_witness :
    parseEntries "[\x7b\"id\":\"1\",\"text\":\"hello\"\x7d]"
        = .ok [{ id := "1", text := "hello" }]
    ∧ (consumeOutcome (.ok "[\x7b\"id\":\"1\",\"text\":\"hello\"\x7d]")
        MyceliaApp.defaultState).entries = [{ id := "1", text := "hello" }]
    ∧ (consumeOutcome (.ok "[\x7b\"id\":\"1\",\"text\":\"hello\"\x7d]")
        MyceliaApp.defaultState).text = some (.ok "") :=
  ⟨by decide,
    mycelia_valid_entries_roundtrip MyceliaApp.defaultState
      "[\x7b\"id\":\"1\",\"text\":\"hello\"\x7d]" [{ id := "1", text := "hello" }] (by decide)⟩

/-- C5: consuming a success outcome whose body fails to parse as a JSON array
of Entry records stores a decode-failure message containing the decode error
(the stored message is the decode error prefixed by "Failed to parse JSON: ")
and leaves the entry sequence cleared — empty, not merged, not stale. -/
theorem mycelia_malformed_body_clears_entries (app : MyceliaApp) (body e : String)
    (h : parseEntries body = .error e) :
    (consumeOutcome (.ok body) app).text
        = some (.error ("Failed to parse JSON: " ++ e))
    ∧ (consumeOutcome (.ok body) app).entries = [] := by
  simp [consumeOutcome, h]

/-- Witness for C5: a malformed body consumed over a state holding an older
entry clears the list and stores the decode failure. -/
theorem mycelia_malformed_body_clears_entries_witness :
    parseEntries "oops" = .error "expected value"
    ∧ (consumeOutcome (.ok "oops")
        { MyceliaApp.defaultState with entries := [{ id := "0", text := "old" }] }).text
        = some (.error ("Failed to parse JSON: " ++ "expected value"))
    ∧ (consumeOutcome (.ok "oops")
        { MyceliaApp.defaultState with entries := [{ id := "0", text := "old" }] }).entries
        = [] :=
  ⟨by decide,
    mycelia_malformed_body_clears_entries
      { MyceliaApp.defaultState with entries := [{ id := "0", text := "old" }] }
      "oops" "expected value" (by decide)⟩

/-- Counterexample to C6: the three error kinds are NOT distinctly tagged.
Consuming a decode failure (success outcome with unparseable body "oops") and
consuming a transport-level failure whose description happens to be the same
text produce literally identical application states, so no tag can tell the
error kinds apart — only the message strings. -/
theorem mycelia_error_kinds_not_tagged_cex :
    consumeOutcome (.ok "oops") MyceliaApp.defaultState
      = consumeOutcome (.error ("Failed to parse JSON: " ++ "expected value"))
          MyceliaApp.defaultState := by
  decide

/-- C6 (amended): success and failure are distinguished by the `Ok`/`Err` tag,
but transport, server-reported and decode failures all share the one
`Err(String)` representation: a decode failure is stored as `Err` of the
decode error prefixed by "Failed to parse JSON: ", and a channel failure
message (transport or server body) is stored as `Err` of that very string,
so the kinds are separable only by message content, not by tag. -/
theorem mycelia_failures_share_err_representation (app : MyceliaApp) (body e msg : String)
    (h : parseEntries body = .error e) :
    (consumeOutcome (.ok body) app).text
        = some (.error ("Failed to parse JSON: " ++ e))
    ∧ (consumeOutcome (.error msg) app).text = some (.error msg) := by
  constructor
  · simp [consumeOutcome, h]
  · simp [consumeOutcome]

/-- Witness for the amended C6. -/
theorem mycelia_failures_share_err_representation_witness :
    parseEntries "oops" = .error "expected value"
    ∧ (consumeOutcome (.ok "oops") MyceliaApp.defaultState).text
        = some (.error ("Failed to parse JSON: " ++ "expected value"))
    ∧ (consumeOutcome (.error "boom") MyceliaApp.defaultState).text
        = some (.error "boom") :=
  ⟨by decide,
    mycelia_failures_share_err_representation MyceliaApp.defaultState
      "oops" "expected value" "boom" (by decide)⟩

/-- Counterexample to C7: the persisted state is not just the API-key string.
`editor_component` carries no `#[serde(skip)]`, so the edit-pane selection is
serialized and restored: after a save/load round trip of a state whose editor
holds an entry, the editor selection is NOT reset to its default `None`. -/
theorem mycelia_editor_selection_persists_cex :
    (loadApp (MyceliaApp.save
        { MyceliaApp.defaultState with
          editor_component := { entry := some { id := "1", text := "hi" } } })).editor_component.entry
      ≠ none := by
  decide

/-- C7 (amended): persisted state consists of the API-key string AND the
editor component's selection; the `#[serde(skip)]` fields — view selection,
stored result `text`, fetched `entries`, and the in-progress receiver `rx` —
are excluded from persistence and reset to their empty defaults on restart. -/
theorem mycelia_persistence_frame (app : MyceliaApp) :
    loadApp (MyceliaApp.save app)
      = { api_key := app.api_key
          editor_component := app.editor_component
          view_entry := none
          text := none
          entries := []
          rx := none } :=
  rfl

/-- C8: consuming a Failure outcome (transport or server-reported) only stores
the message into `text`; the entry list — and every other field — is left
unchanged, so previously fetched entries survive a failed re-fetch.  Clearing
happens only in the success-body branch. -/
theorem mycelia_failure_preserves_entries (app : MyceliaApp) (e : String) :
    consumeOutcome (.error e) app = { app with text := some (.error e) } :=
  rfl

/-- C9: every reachable state satisfies the invariant that a pending receiver
(`rx` is `Some`) implies `text` is `None`, so the `text.is_none()` poll gate
in `update` can never permanently block a pending request from being
consumed. -/
theorem mycelia_pending_rx_implies_text_none (tr : List Event)
    (h : (execW initW tr).app.rx.isSome = true) :
    (execW initW tr).app.text = none :=
  (execW_inv initW tr initW_inv).2.2.2 h

/-- Witness for C9: right after a dispatch the receiver is pending and the
gate is open. -/
theorem mycelia_pending_rx_implies_text_none_witness :
    (execW initW [Event.reload]).app.rx.isSome = true
    ∧ (execW initW [Event.reload]).app.text = none :=
  ⟨by decide, mycelia_pending_rx_implies_text_none [Event.reload] (by decide)⟩

/-- C10: the completion callback's `res.text().unwrap()` is total exactly on
responses whose body bytes are valid UTF-8: the callback produces an outcome
iff decoding succeeds, and on a completed response with invalid UTF-8 (such
as the lone byte 0xFF) it panics (`none`) instead of sending an outcome. -/
theorem mycelia_callback_panics_iff_non_utf8 :
    (∀ r : Response, fetchCallback (.ok r) = none ↔ utf8Decode? r.bytes = none)
    ∧ fetchCallback (.ok { ok := true, bytes := [255] }) = none := by
  constructor
  · intro r
    cases h : utf8Decode? r.bytes <;>
      simp [fetchCallback, Response.text, h]
  · rfl
